import Mathlib

/-!
Shallow embedding of the godbms copy-on-write B-tree engine: the page
codec and node algorithms of src/internal/btree/bnode.go, the B-tree
controller of src/unnamed/part_000, the commit protocol of
src/unnamed/part_001 and the KV surface of src/unnamed/part_002.
Go uint16 arithmetic is modelled on Nat with explicit reduction modulo
65536; byte buffers are length-tagged functions from positions to byte
values; Go panics (failed assert calls, bad node types) are modelled as
none, and recursion through the page store is bounded by explicit fuel.
-/

set_option maxRecDepth 4000

namespace GoDB

/-- Reduction modulo 2^16: the wrap of Go uint16 arithmetic. -/
def u16 (x : Nat) : Nat := x % 65536

/-- Go uint16 subtraction with wraparound. -/
def sub16 (a b : Nat) : Nat := (a % 65536 + 65536 - b % 65536) % 65536

/-- A Go byte slice: a length together with the byte stored at each position. -/
structure Page where
  len : Nat
  data : Nat → Nat

/-- make([]byte, n): n zero bytes. -/
def emptyPage (n : Nat) : Page := ⟨n, fun _ => 0⟩

/-- binary.LittleEndian.Uint16(node[pos:]). -/
def readU16 (p : Page) (pos : Nat) : Nat :=
  p.data pos % 256 + 256 * (p.data (pos + 1) % 256)

/-- copy(node[pos:], bs): overwrite bytes starting at pos. -/
def writeBytes (p : Page) (pos : Nat) (bs : List Nat) : Page :=
  ⟨p.len, fun i => if pos ≤ i ∧ i < pos + bs.length then bs.getD (i - pos) 0 % 256 else p.data i⟩

/-- binary.LittleEndian.PutUint16(node[pos:], v). -/
def writeU16 (p : Page) (pos v : Nat) : Page :=
  writeBytes p pos [v % 256, v / 256 % 256]

/-- node[pos:][:n] read out as a byte list. -/
def readBytes (p : Page) (pos n : Nat) : List Nat :=
  (List.range n).map fun j => p.data (pos + j) % 256

/-- bnode.go:41 btype: type tag of a node, 1 = internal, 2 = leaf. -/
def btype (node : Page) : Nat := readU16 node 0

/-- bnode.go:45 nkeys. -/
def nkeys (node : Page) : Nat := readU16 node 2

/-- bnode.go:50 setHeader. -/
def setHeader (node : Page) (bt nk : Nat) : Page :=
  writeU16 (writeU16 node 0 (u16 bt)) 2 (u16 nk)

/-- bnode.go:56 getPtr: asserts idx < nkeys, then reads a 16-bit value at
position 4 + 8*idx (the source reads only two bytes of the 8-byte slot). -/
def getPtr (node : Page) (idx : Nat) : Option Nat :=
  if idx < nkeys node then some (readU16 node (u16 (4 + 8 * idx))) else none

/-- bnode.go:63 setPtr: asserts idx < nkeys, then writes a 16-bit value at
position 4 + 8*idx (the source writes only two bytes of the 8-byte slot). -/
def setPtr (node : Page) (idx val : Nat) : Option Page :=
  if idx < nkeys node then some (writeU16 node (u16 (4 + 8 * idx)) (u16 val)) else none

/-- bnode.go:71 getOffset: offsets[0] is implicitly 0. -/
def getOffset (node : Page) (idx : Nat) : Nat :=
  if idx = 0 then 0 else readU16 node (u16 (4 + 8 * nkeys node + 2 * (idx - 1)))

/-- bnode.go:80 offsetPos: asserts 1 <= idx <= nkeys. -/
def offsetPos (node : Page) (idx : Nat) : Option Nat :=
  if 1 ≤ idx ∧ idx ≤ nkeys node then some (u16 (4 + 8 * nkeys node + 2 * (idx - 1))) else none

/-- bnode.go:85 setOffset. -/
def setOffset (node : Page) (idx offset : Nat) : Option Page :=
  (offsetPos node idx).map fun pos => writeU16 node pos (u16 offset)

/-- bnode.go:89 kvPos: asserts idx <= nkeys. -/
def kvPos (node : Page) (idx : Nat) : Option Nat :=
  if idx ≤ nkeys node then
    some (u16 (4 + 8 * nkeys node + 2 * nkeys node + getOffset node idx))
  else none

/-- bnode.go:95 getKey. -/
def getKey (node : Page) (idx : Nat) : Option (List Nat) :=
  if idx < nkeys node then do
    let pos ← kvPos node idx
    let klen := readU16 node pos
    some (readBytes node (u16 (pos + 4)) klen)
  else none

/-- bnode.go:104 getValue. -/
def getValue (node : Page) (idx : Nat) : Option (List Nat) :=
  if idx < nkeys node then do
    let pos ← kvPos node idx
    let klen := readU16 node pos
    let vlen := readU16 node (u16 (pos + 2))
    some (readBytes node (u16 (pos + 4 + klen)) vlen)
  else none

/-- bnode.go:114 nodeAppendKV.  Two slips of the source are kept verbatim:
line 123 stores uint16(len(key)) into the val_size field, and line 130
calls setOffset(idx, getOffset(idx) + ...) on the current slot idx, whose
offsetPos assertion 1 <= idx fails when idx = 0. -/
def nodeAppendKV (node : Page) (idx ptr : Nat) (key val : List Nat) : Option Page := do
  let node ← setPtr node idx ptr
  let pos ← kvPos node idx
  let node := writeU16 node pos (u16 key.length)
  let node := writeU16 node (u16 (pos + 2)) (u16 key.length)
  let node := writeBytes node (u16 (pos + 4)) key
  let node := writeBytes node (u16 (pos + 4 + u16 key.length)) val
  setOffset node idx (u16 (getOffset node idx + 4 + u16 (key.length + val.length)))

/-- bnode.go:133 nbytes = kvPos(nkeys); that kvPos bound check idx <= nkeys
holds trivially, so the value is returned directly. -/
def nbytes (node : Page) : Nat :=
  u16 (4 + 8 * nkeys node + 2 * nkeys node + getOffset node (nkeys node))

/-- Loop body of bnode.go:146 nodeAppendRange: i counts up, m entries remain. -/
def appendRangeLoop (old : Page) (dstNew srcOld : Nat) : Nat → Nat → Page → Option Page
  | _, 0, node => some node
  | i, m + 1, node => do
    let p ← getPtr old (u16 (srcOld + i))
    let k ← getKey old (u16 (srcOld + i))
    let v ← getValue old (u16 (srcOld + i))
    let node ← nodeAppendKV node (u16 (dstNew + i)) p k v
    appendRangeLoop old dstNew srcOld (i + 1) m node

/-- bnode.go:146 nodeAppendRange. -/
def nodeAppendRange (node old : Page) (dstNew srcOld n : Nat) : Option Page :=
  appendRangeLoop old dstNew srcOld 0 n node

/-- bnode.go:137 leafInsert. -/
def leafInsert (node old : Page) (idx : Nat) (key val : List Nat) : Option Page := do
  let node := setHeader node 2 (u16 (nkeys old + 1))
  let node ← nodeAppendRange node old 0 0 idx
  let node ← nodeAppendKV node idx 0 key val
  nodeAppendRange node old (u16 (idx + 1)) idx (sub16 (nkeys old) idx)

/-- bnode.go:153 leafUpdate. -/
def leafUpdate (node old : Page) (idx : Nat) (key val : List Nat) : Option Page := do
  let node := setHeader node 2 (u16 (nkeys old))
  let node ← nodeAppendRange node old 0 0 idx
  let node ← nodeAppendKV node idx 0 key val
  nodeAppendRange node old (u16 (idx + 1)) (u16 (idx + 1)) (sub16 (nkeys old) (idx + 1))

/-- bytes.Compare on byte slices: lexicographic, then by length. -/
def compareBytes : List Nat → List Nat → Ordering
  | [], [] => Ordering.eq
  | [], _ :: _ => Ordering.lt
  | _ :: _, [] => Ordering.gt
  | a :: xs, b :: ys =>
    if a % 256 < b % 256 then Ordering.lt
    else if b % 256 < a % 256 then Ordering.gt
    else compareBytes xs ys

/-- Loop of bnode.go:167 nodeLookupLE: i counts up, m iterations remain;
the final and the cmp > 0 returns are i - 1 with uint16 wraparound. -/
def lookupLoop (node : Page) (key : List Nat) : Nat → Nat → Option Nat
  | i, 0 => some (sub16 i 1)
  | i, m + 1 => do
    let k ← getKey node i
    match compareBytes k key with
    | Ordering.eq => some i
    | Ordering.gt => some (sub16 i 1)
    | Ordering.lt => lookupLoop node key (i + 1) m

/-- bnode.go:167 nodeLookupLE. -/
def nodeLookupLE (node : Page) (key : List Nat) : Option Nat :=
  lookupLoop node key 0 (nkeys node)

/-- Shrink loop of bnode.go:197: decrement nleft while the left half's
encoded size exceeds the page size; fuel bounds the uint16 wraparound. -/
def split2Shrink (old : Page) : Nat → Nat → Option Nat
  | 0, _ => none
  | f + 1, nleft =>
    if 4096 < u16 (4 + 8 * nleft + 2 * nleft + getOffset old nleft) then
      split2Shrink old f (sub16 nleft 1)
    else some nleft

/-- Grow loop of bnode.go:206: increment nleft while the right half's
encoded size (nbytes - left_bytes + 4, uint16 arithmetic) exceeds the page
size. -/
def split2Grow (old : Page) : Nat → Nat → Option Nat
  | 0, _ => none
  | f + 1, nleft =>
    if 4096 < u16 (sub16 (nbytes old) (u16 (4 + 8 * nleft + 2 * nleft + getOffset old nleft)) + 4) then
      split2Grow old f (u16 (nleft + 1))
    else some nleft

/-- bnode.go:186 nodeSplit2, writing into the supplied left and right
buffers; the source's assert calls become guards. -/
def nodeSplit2 (fuel : Nat) (left right old : Page) : Option (Page × Page) := do
  guard (2 ≤ nkeys old)
  let nleft ← split2Shrink old fuel (nkeys old / 2)
  guard (1 ≤ nleft)
  let nleft ← split2Grow old fuel nleft
  guard (nleft < nkeys old)
  let nright := sub16 (nkeys old) nleft
  let left := setHeader left (btype old) nleft
  let right := setHeader right (btype old) nright
  let left ← nodeAppendRange left old 0 0 nleft
  let right ← nodeAppendRange right old 0 nleft nright
  guard (nbytes right ≤ 4096)
  some (left, right)

/-- bnode.go:225 nodeSplit3: 1 to 3 result nodes. -/
def nodeSplit3 (fuel : Nat) (old : Page) : Option (Nat × List Page) :=
  if nbytes old ≤ 4096 then some (1, [{ old with len := 4096 }])
  else do
    let lr ← nodeSplit2 fuel (emptyPage 8192) (emptyPage 4096) old
    let left := lr.1
    let right := lr.2
    if nbytes left ≤ 4096 then some (2, [{ left with len := 4096 }, right])
    else do
      let lm ← nodeSplit2 fuel (emptyPage 4096) (emptyPage 4096) left
      guard (nbytes lm.1 ≤ 4096)
      some (3, [lm.1, lm.2, right])

/-- bnode.go:248 checkLimit: rejects only when the key length and the
value length both reach their limits (1000 and 3000). -/
def checkLimit (key value : List Nat) : Option Unit :=
  if 1000 ≤ key.length ∧ 3000 ≤ value.length then some () else none

/-- An operation performed through the page store callbacks get/new/del. -/
inductive Ev
  | get (id : Nat)
  | alloc (id : Nat)
  | free (id : Nat)
deriving DecidableEq

/-- Concrete model of the page store behind the BTree get/new/del
callbacks (their implementation is outside the core, see spec section 6);
a trace records the calls in order. -/
structure Store where
  pages : List (Nat × Page)
  nextId : Nat
  trace : List Ev

/-- tree.get: fails fatally when the page ID is unknown. -/
def storeGet (st : Store) (id : Nat) : Option (Page × Store) :=
  (st.pages.lookup id).map fun p =>
    (p, { st with trace := st.trace ++ [Ev.get id] })

/-- tree.new: allocate a fresh page ID for the given page image. -/
def storeNew (st : Store) (p : Page) : Nat × Store :=
  (st.nextId,
   { pages := (st.nextId, p) :: st.pages
     nextId := st.nextId + 1
     trace := st.trace ++ [Ev.alloc st.nextId] })

/-- tree.del: mark the page ID reusable. -/
def storeDel (st : Store) (id : Nat) : Store :=
  { st with pages := st.pages.filter fun e => !(e.1 == id)
            trace := st.trace ++ [Ev.free id] }

/-- part_000:5 BTree: root page ID (0 = empty tree) plus the store. -/
structure BTreeState where
  root : Nat
  store : Store

/-- Loop of part_000:89 in nodeReplaceKidN: allocate each kid and append
its (pointer, first-key) entry; the allocated ID is truncated by the
source's uint16 conversion inside nodeAppendKV's caller. -/
def replaceKidLoop : Store → Page → Nat → Nat → List Page → Option (Page × Store)
  | st, node, _, _, [] => some (node, st)
  | st, node, idx, i, kid :: rest => do
    let pst := storeNew st kid
    let k0 ← getKey kid 0
    let node ← nodeAppendKV node (u16 (idx + i)) (u16 pst.1) k0 []
    replaceKidLoop pst.2 node idx (i + 1) rest

/-- part_000:85 nodeReplaceKidN. -/
def nodeReplaceKidN (st : Store) (node old : Page) (idx : Nat) (kids : List Page) :
    Option (Page × Store) := do
  let inc := kids.length
  let node := setHeader node 1 (sub16 (u16 (nkeys old + inc)) 1)
  let node ← nodeAppendRange node old 0 0 idx
  let ns ← replaceKidLoop st node idx 0 kids
  let node ← nodeAppendRange ns.1 old (u16 (idx + inc)) (u16 (idx + 1)) (sub16 (nkeys old) (idx + 1))
  some (node, ns.2)

/-- part_000:53 treeInsert: recursive descent, bounded by fuel; the
default switch case (bad node type) is a panic, hence none. -/
def treeInsert : Nat → Store → Page → List Nat → List Nat → Option (Page × Store)
  | 0, _, _, _, _ => none
  | fuel + 1, st, node, key, val => do
    let idx ← nodeLookupLE node key
    if btype node = 2 then do
      let cur ← getKey node idx
      if key = cur then do
        let node2 ← leafUpdate (emptyPage 8192) node idx key val
        some (node2, st)
      else do
        let node2 ← leafInsert (emptyPage 8192) node (u16 (idx + 1)) key val
        some (node2, st)
    else if btype node = 1 then do
      let kptr ← getPtr node idx
      let cst ← storeGet st kptr
      let ks ← treeInsert fuel cst.2 cst.1 key val
      let ss ← nodeSplit3 (fuel + 1) ks.1
      let st2 := storeDel ks.2 kptr
      nodeReplaceKidN st2 (emptyPage 8192) node idx (ss.2.take ss.1)
    else none

/-- Loop of part_000:38 in the root-split branch of BTree.Insert; the
source appends the (pointer, key) entry into knode, the child itself,
rather than into the fresh root (the built root page stays empty). -/
def rootSplitLoop : Store → Nat → List Page → Option Store
  | st, _, [] => some st
  | st, i, knode :: rest => do
    let pst := storeNew st knode
    let k0 ← getKey knode 0
    let _ ← nodeAppendKV knode (u16 i) (u16 pst.1) k0 []
    rootSplitLoop pst.2 (i + 1) rest

/-- Error surface of part_000:13 BTree.Insert: the checkLimit rejection,
or a modelled panic from the tree machinery. -/
inductive InsErr
  | sizeLimit
  | fatal
deriving DecidableEq

/-- part_000:13 BTree.Insert.  The empty-tree branch appends the sentinel
at slot 0 and then the new entry again at slot 0 (with pointer argument 1),
exactly as the source does. -/
def Insert (fuel : Nat) (t : BTreeState) (key val : List Nat) : Option InsErr × BTreeState :=
  match checkLimit key val with
  | some _ => (some InsErr.sizeLimit, t)
  | none =>
    if t.root = 0 then
      match (do
        let root := setHeader (emptyPage 4096) 2 2
        let root ← nodeAppendKV root 0 0 [] []
        let root ← nodeAppendKV root 0 1 key val
        some root : Option Page) with
      | none => (some InsErr.fatal, t)
      | some root =>
        let pst := storeNew t.store root
        (none, { root := pst.1, store := pst.2 })
    else
      match (do
        let rst ← storeGet t.store t.root
        let ns ← treeInsert fuel rst.2 rst.1 key val
        let ss ← nodeSplit3 (fuel + 1) ns.1
        let st := storeDel ns.2 t.root
        if 1 < ss.1 then do
          let root := setHeader (emptyPage 4096) 1 ss.1
          let st ← rootSplitLoop st 0 (ss.2.take ss.1)
          let pst := storeNew st root
          some pst
        else do
          let pst := storeNew st (ss.2.headD (emptyPage 0))
          some pst : Option (Nat × Store)) with
      | none => (some InsErr.fatal, t)
      | some pst => (none, { root := pst.1, store := pst.2 })

/-- part_000:95 shouldMerge, right-sibling half (part_000:110-117): the
source computes the candidate merged size from sibling.btype() rather
than sibling.nbytes(). -/
def shouldMergeRight (st : Store) (node : Page) (idx : Nat) (updated : Page) :
    Option ((Int × Page) × Store) := do
  if idx + 1 < nkeys node then do
    let p ← getPtr node (u16 (idx + 1))
    let sst ← storeGet st p
    let merged := sub16 (u16 (btype sst.1 + nbytes updated)) 4
    if merged ≤ 4096 then some (((1 : Int), sst.1), sst.2)
    else some (((0 : Int), emptyPage 0), sst.2)
  else some (((0 : Int), emptyPage 0), st)

/-- part_000:95 shouldMerge: merge direction (-1 left, +1 right, 0 none)
and the chosen sibling. -/
def shouldMerge (st : Store) (node : Page) (idx : Nat) (updated : Page) :
    Option ((Int × Page) × Store) := do
  if 4096 / 4 < nbytes updated then some (((0 : Int), emptyPage 0), st)
  else if 0 < idx then do
    let p ← getPtr node (sub16 idx 1)
    let sst ← storeGet st p
    let merged := sub16 (u16 (nbytes sst.1 + nbytes updated)) 4
    if merged ≤ 4096 then some (((-1 : Int), sst.1), sst.2)
    else shouldMergeRight sst.2 node idx updated
  else shouldMergeRight st node idx updated

/-- Modelled from the spec: nodeMerge is declared at bnode.go:162 with no
body in src; the spec's merge contract is "concatenate left node's
entries then right node's entries into one page". -/
def nodeMerge (node left right : Page) : Option Page := do
  let node := setHeader node (btype left) (u16 (nkeys left + nkeys right))
  let node ← nodeAppendRange node left 0 0 (nkeys left)
  nodeAppendRange node right (nkeys left) 0 (nkeys right)

/-- Modelled from the spec: nodeReplace2Kid is declared at bnode.go:164
with no body in src; per the spec's internal child replacement it splices
one (pointer, key) entry in place of the two children at idx and idx+1. -/
def nodeReplace2Kid (node old : Page) (idx ptr : Nat) (key : List Nat) : Option Page := do
  let node := setHeader node 1 (sub16 (nkeys old) 1)
  let node ← nodeAppendRange node old 0 0 idx
  let node ← nodeAppendKV node idx (u16 ptr) key []
  nodeAppendRange node old (u16 (idx + 1)) (u16 (idx + 2)) (sub16 (nkeys old) (idx + 2))

/-- part_000:124 nodeDelete.  treeDelete is declared at part_000:122 with
no body in src, so the recursive call is taken as a parameter td.  The
child page handed to td is fetched with tree.get(uint64(idx)) - the slot
index used as a page ID - exactly as the source does, while kptr =
getPtr(idx) is only used for the free.  The source's duplicated
`case mergeDir < 0` arm (part_000:143, dead code) is kept. -/
def nodeDelete (td : Store → Page → List Nat → Option (Page × Store))
    (st : Store) (node : Page) (idx : Nat) (key : List Nat) : Option (Page × Store) := do
  let kptr ← getPtr node idx
  let fst1 ← storeGet st idx
  let ust ← td fst1.2 fst1.1 key
  let updated := ust.1
  if updated.len = 0 then
    some (emptyPage 0, ust.2)
  else do
    let st := storeDel ust.2 kptr
    let node2 := emptyPage 4096
    let ms ← shouldMerge st node idx updated
    let mergeDir := ms.1.1
    let sibling := ms.1.2
    let st := ms.2
    if mergeDir < 0 then do
      let merged ← nodeMerge (emptyPage 4096) sibling updated
      let p ← getPtr node (sub16 idx 1)
      let st := storeDel st p
      let pst := storeNew st merged
      let k0 ← getKey merged 0
      let node2 ← nodeReplace2Kid node2 node (sub16 idx 1) pst.1 k0
      some (node2, pst.2)
    else if mergeDir < 0 then do
      let merged ← nodeMerge (emptyPage 4096) sibling updated
      let p ← getPtr node (u16 (idx + 1))
      let st := storeDel st p
      let pst := storeNew st merged
      let k0 ← getKey merged 0
      let node2 ← nodeReplace2Kid node2 node idx pst.1 k0
      some (node2, pst.2)
    else if mergeDir = 0 ∧ nkeys updated = 0 then do
      guard (nkeys node = 1 ∧ idx = 0)
      some (setHeader node2 1 0, st)
    else if mergeDir = 0 ∧ 0 < nkeys updated then
      nodeReplaceKidN st node2 node idx [updated]
    else
      some (node2, st)

/-- A call made by the commit protocol of part_001:11 updateFile. -/
inductive Step
  | writePages
  | fsync
  | updateRoot
deriving DecidableEq

/-- part_001:11 updateFile.  writePages and updateRoot are declared with
no body in src, and fsync is a syscall, so each call site's outcome is a
parameter (none = success); the returned trace lists the calls actually
made, in order. -/
def updateFile (wp f1 ur f2 : Option Nat) : Option Nat × List Step :=
  match wp with
  | some e => (some e, [Step.writePages])
  | none =>
    match f1 with
    | some e => (some e, [Step.writePages, Step.fsync])
    | none =>
      match ur with
      | some e => (some e, [Step.writePages, Step.fsync, Step.updateRoot])
      | none => (f2, [Step.writePages, Step.fsync, Step.updateRoot, Step.fsync])

/-- part_002:229 KV.Delete.  BTree.Delete is declared at part_000:51 with
no body in src, so its boolean outcome is the parameter deleted; the
result pairs that boolean with updateFile's error, and the trace is the
commit protocol's. -/
def kvDelete (deleted : Bool) (wp f1 ur f2 : Option Nat) :
    (Bool × Option Nat) × List Step :=
  ((deleted, (updateFile wp f1 ur f2).1), (updateFile wp f1 ur f2).2)

/-- Two-byte little-endian encoding, for building test pages. -/
def u16le (v : Nat) : List Nat := [v % 256, v / 256 % 256]

/-- Eight-byte little-endian encoding, for building test pages. -/
def u64le (v : Nat) : List Nat :=
  [v % 256, v / 2 ^ 8 % 256, v / 2 ^ 16 % 256, v / 2 ^ 24 % 256,
   v / 2 ^ 32 % 256, v / 2 ^ 40 % 256, v / 2 ^ 48 % 256, v / 2 ^ 56 % 256]

/-- Test-input entry: pointer, key bytes, explicit value bytes, and a
count of further trailing zero value bytes (left unmaterialised, since
unwritten page bytes already read as 0). -/
structure TEntry where
  ptr : Nat
  key : List Nat
  val : List Nat
  zeros : Nat

/-- Declared value length of a test entry. -/
def tvlen (e : TEntry) : Nat := e.val.length + e.zeros

/-- Bytes of one key-value cell per the node format documented at the
head of bnode.go: key_size, val_size, key, value (sans trailing zeros). -/
def entrySeg (e : TEntry) : List Nat :=
  u16le e.key.length ++ u16le (tvlen e) ++ e.key ++ e.val

/-- Write the key-value cells at their successive positions. -/
def buildKV : Page → Nat → List TEntry → Page
  | p, _, [] => p
  | p, pos, e :: rest =>
    buildKV (writeBytes p pos (entrySeg e)) (pos + 4 + e.key.length + tvlen e) rest

/-- Write the offsets array: cumulative end positions of the entries. -/
def buildOffsets : Page → Nat → Nat → List TEntry → Page
  | p, _, _, [] => p
  | p, pos, acc, e :: rest =>
    buildOffsets (writeU16 p pos (acc + 4 + e.key.length + tvlen e)) (pos + 2)
      (acc + 4 + e.key.length + tvlen e) rest

/-- Write the 8-byte child pointer slots. -/
def buildPtrs : Page → Nat → List TEntry → Page
  | p, _, [] => p
  | p, pos, e :: rest => buildPtrs (writeBytes p pos (u64le e.ptr)) (pos + 8) rest

/-- A well-formed node image per the documented format: header, 8-byte
pointer slots, offsets array, key-value region. -/
def buildNode (len bt : Nat) (entries : List TEntry) : Page :=
  buildKV
    (buildOffsets
      (buildPtrs (setHeader (emptyPage len) bt entries.length) 4 entries)
      (4 + 8 * entries.length) 0 entries)
    (4 + 8 * entries.length + 2 * entries.length) entries

/-- A leaf page under sequential construction: header written with
nkeys = 2, all slots still empty. -/
def blankLeaf2 : Page := setHeader (emptyPage 4096) 2 2

/-- A well-formed 2-key leaf whose encoded size 4124 exceeds the page
size: value lengths 30 and 4060. -/
def bigNode : Page :=
  buildNode 8192 2 [⟨0, [97], [1], 29⟩, ⟨0, [98], [], 4060⟩]

/-- A small post-delete child: one entry, encoded size 20. -/
def updatedSmall : Page := buildNode 4096 2 [⟨0, [65], [66], 0⟩]

/-- A right sibling of encoded size 4090, close to a full page. -/
def rightSib : Page := buildNode 4096 2 [⟨0, [67], [3], 4070⟩]

/-- An internal parent with two children at page IDs 10 and 11. -/
def mergeParent : Page := buildNode 4096 1 [⟨10, [65], [], 0⟩, ⟨11, [67], [], 0⟩]

/-- Store holding the right sibling at page ID 11. -/
def mergeStore : Store := ⟨[(11, rightSib)], 100, []⟩

/-- An internal parent with one child whose stored pointer is page ID 7. -/
def delParent : Page := buildNode 4096 1 [⟨7, [80], [], 0⟩]

/-- The page stored at ID 0. -/
def pageAt0 : Page := buildNode 4096 2 [⟨0, [61], [62], 0⟩]

/-- The page stored at ID 7, the one delParent's pointer designates. -/
def pageAt7 : Page := buildNode 4096 2 [⟨0, [63], [64], 0⟩]

/-- Store holding distinct pages at IDs 0 and 7. -/
def delStore : Store := ⟨[(0, pageAt0), (7, pageAt7)], 100, []⟩

/-- Probe standing for the bodyless treeDelete: performs no store calls
and reports not-found (a zero-length node). -/
def tdProbe : Store → Page → List Nat → Option (Page × Store) :=
  fun st _ _ => some (emptyPage 0, st)

/-- An empty tree (root page ID 0) over an empty store. -/
def emptyTreeState : BTreeState := ⟨0, ⟨[], 1, []⟩⟩

/-- A leaf page with header nkeys = 1, slots still empty. -/
def oneKeyLeaf : Page := setHeader (emptyPage 4096) 2 1

/-- C1: the claim says nodeAppendKV at slot i sets offsets[i+1] to
offsets[i] + 4 + |k| + |v| for every i including 0.  The code instead
calls setOffset on slot i itself: at i = 0 the offsetPos assertion
1 <= idx fails (a panic, modelled none), and at i = 1 with k = [5],
v = [6] the result holds offsets[1] = 6 and offsets[2] = 0, where the
claim requires offsets[1] untouched (0) and offsets[2] = 6. -/
theorem nodeAppendKV_offset_slip :
    nodeAppendKV blankLeaf2 0 0 [5] [6] = none
    ∧ (nodeAppendKV blankLeaf2 1 0 [5] [6]).map (fun m => (getOffset m 1, getOffset m 2)) =
        some (6, 0) :=
  ⟨rfl, rfl⟩

/-- C2: the claim says that after appending (k, v) at slot i, getKey i
returns k and getValue i returns v.  Appending k = [7, 8], v = [9] at
slot 1 of a node under construction instead yields getKey = some [] and
getValue = some [] (the setOffset slip moves slot 1's read position past
the written bytes), and the val_size field at byte 26 holds 2, the key
length, not 1. -/
theorem nodeAppendKV_readback_cex :
    (nodeAppendKV blankLeaf2 1 0 [7, 8] [9]).map (fun m => (getKey m 1, getValue m 1)) =
        some (some [], some [])
    ∧ (nodeAppendKV blankLeaf2 1 0 [7, 8] [9]).map (fun m => readU16 m 26) = some 2
    ∧ (nodeAppendKV blankLeaf2 1 0 [7, 8] [9]).map (fun m => (getKey m 1, getValue m 1)) ≠
        some (some [7, 8], some [9]) :=
  ⟨rfl, rfl, by decide⟩

/-- C3: the claim says splitting a node whose encoded size exceeds
4096 yields 2 or 3 nodes within the page size preserving the keys.
bigNode is a well-formed 2-key leaf of encoded size 4124 > 4096, yet
nodeSplit3 produces no nodes at all: nodeSplit2's nodeAppendRange call
reaches nodeAppendKV at destination slot 0, whose setOffset(0, ...)
fails the offsetPos assertion (a panic, modelled none). -/
theorem nodeSplit3_cex :
    nodeSplit3 100000 bigNode = none ∧ 4096 < nbytes bigNode :=
  ⟨rfl, by decide⟩

/-- C4: Insert returns the size-limit error with the tree state
untouched exactly when the key length exceeds 999 and the value length
exceeds 2999; when only one bound is exceeded checkLimit passes. -/
theorem insert_size_limit_policy (fuel : Nat) (t : BTreeState) (k v : List Nat) :
    (((Insert fuel t k v).1 = some InsErr.sizeLimit ∧ (Insert fuel t k v).2 = t) ↔
        (999 < k.length ∧ 2999 < v.length))
    ∧ (checkLimit k v).isSome = (decide (999 < k.length) && decide (2999 < v.length)) := by
  have hck : checkLimit k v = if 1000 ≤ k.length ∧ 3000 ≤ v.length then some () else none := rfl
  constructor
  · by_cases h : 1000 ≤ k.length ∧ 3000 ≤ v.length
    · have hins : Insert fuel t k v = (some InsErr.sizeLimit, t) := by
        unfold Insert
        rw [hck, if_pos h]
      constructor
      · intro _
        exact ⟨h.1, h.2⟩
      · intro _
        rw [hins]
        exact ⟨rfl, rfl⟩
    · have hnone : checkLimit k v = none := by rw [hck, if_neg h]
      constructor
      · rintro ⟨h1, -⟩
        exfalso
        unfold Insert at h1
        rw [hnone] at h1
        split at h1
        · simp_all
        · split at h1 <;> split at h1 <;> simp_all
      · intro hb
        exact absurd ⟨hb.1, hb.2⟩ h
  · by_cases hk : 1000 ≤ k.length <;> by_cases hv : 3000 ≤ v.length <;>
      simp_all [hck, Nat.lt_iff_add_one_le]

/-- C4 witness: a key of length 1000 and a value of length 3000 are
rejected with the size-limit error and the state unchanged. -/
theorem insert_size_limit_policy_w :
    (999 < (List.replicate 1000 1).length ∧ 2999 < (List.replicate 3000 2).length)
    ∧ ((Insert 5 emptyTreeState (List.replicate 1000 1) (List.replicate 3000 2)).1 =
          some InsErr.sizeLimit
        ∧ (Insert 5 emptyTreeState (List.replicate 1000 1) (List.replicate 3000 2)).2 =
            emptyTreeState) := by
  have h :=
    (insert_size_limit_policy 5 emptyTreeState (List.replicate 1000 1) (List.replicate 3000 2)).1
  have hk : (List.replicate 1000 (1 : Nat)).length = 1000 := List.length_replicate ..
  have hv : (List.replicate 3000 (2 : Nat)).length = 3000 := List.length_replicate ..
  have hb : 999 < (List.replicate 1000 (1 : Nat)).length ∧
      2999 < (List.replicate 3000 (2 : Nat)).length := by omega
  exact ⟨hb, h.mpr hb⟩

/-- C5: the claim says the right-sibling merge check uses the sibling's
encoded byte size, like the left check.  With a right sibling of
nbytes 4090 and an updated child of nbytes 20, the byte-size formula
gives 4090 + 20 - 4 = 4106 > 4096, so no merge is permitted; yet
shouldMerge returns direction 1 (merge right) because the source
computes the candidate size from sibling.btype() = 2. -/
theorem shouldMerge_right_cex :
    (shouldMerge mergeStore mergeParent 0 updatedSmall).map (fun r => r.1.1) = some 1
    ∧ 4096 < nbytes rightSib + nbytes updatedSmall - 4 :=
  ⟨rfl, by decide⟩

/-- C6: the claim says the child page handed to the recursive delete is
fetched via the stored child pointer.  On a parent whose slot 0 holds
pointer 7, nodeDelete's only store read is of page ID 0 - the slot
index - as the trace shows, not of page ID 7 = getPtr 0. -/
theorem nodeDelete_fetch_cex :
    (nodeDelete tdProbe delStore delParent 0 [80]).map (fun r => r.2.trace) = some [Ev.get 0]
    ∧ getPtr delParent 0 = some 7 :=
  ⟨rfl, rfl⟩

/-- C7: the claim says Insert on an empty tree builds a two-slot leaf
root (sentinel at slot 0, entry at slot 1), persists it and updates the
root.  The source appends both entries at slot 0 and the very first
nodeAppendKV fails setOffset's assertion, so Insert panics (modelled as
the fatal error): the root stays 0 and no store call is made. -/
theorem insert_empty_tree_cex :
    (Insert 10 emptyTreeState [97] [98]).1 = some InsErr.fatal
    ∧ (Insert 10 emptyTreeState [97] [98]).2.root = 0
    ∧ (Insert 10 emptyTreeState [97] [98]).2.store.trace = [] :=
  ⟨rfl, rfl, rfl⟩

/-- C8: in updateFile, updateRoot is called exactly when writePages and
the first fsync both succeeded, and then only third in the call order;
the full four-call sequence writePages, fsync, updateRoot, fsync occurs
exactly when the first three calls succeed; and when writePages or the
first fsync fails, that error is returned and updateRoot is never
called. -/
theorem updateFile_commit_order (wp f1 ur f2 : Option Nat) :
    ((Step.updateRoot ∈ (updateFile wp f1 ur f2).2) ↔ (wp = none ∧ f1 = none))
    ∧ ((Step.updateRoot ∈ (updateFile wp f1 ur f2).2) ↔
        (updateFile wp f1 ur f2).2.take 3 = [Step.writePages, Step.fsync, Step.updateRoot])
    ∧ (((updateFile wp f1 ur f2).2.count Step.fsync = 2) ↔ (wp = none ∧ f1 = none ∧ ur = none))
    ∧ (((updateFile wp f1 ur f2).2 =
          [Step.writePages, Step.fsync, Step.updateRoot, Step.fsync]) ↔
        (wp = none ∧ f1 = none ∧ ur = none))
    ∧ (¬(wp = none ∧ f1 = none) →
        (updateFile wp f1 ur f2).1 = (if wp = none then f1 else wp)
        ∧ Step.updateRoot ∉ (updateFile wp f1 ur f2).2) := by
  rcases wp with - | e <;> rcases f1 with - | e1 <;> rcases ur with - | e2 <;>
    simp [updateFile, List.count_cons]

/-- C8 witness: when writePages fails with error 5, updateFile returns
that error and updateRoot is not among the calls made. -/
theorem updateFile_commit_order_w :
    (updateFile (some 5) none none none).1 = some 5
    ∧ Step.updateRoot ∉ (updateFile (some 5) none none none).2 := by
  obtain ⟨ha, hb⟩ := (updateFile_commit_order (some 5) none none none).2.2.2.2 (by simp)
  exact ⟨by simpa using ha, hb⟩

/-- C10: KV.Delete runs the commit protocol on every call - its trace is
updateFile's trace, beginning with writePages - and returns updateFile's
error as its own alongside the (abstract) deletion flag; with all steps
succeeding the full two-fsync sequence runs even when deleted = false. -/
theorem kvDelete_always_commits (deleted : Bool) (wp f1 ur f2 : Option Nat) :
    ((kvDelete deleted wp f1 ur f2).2.head? = some Step.writePages)
    ∧ ((kvDelete deleted wp f1 ur f2).1.2 = (updateFile wp f1 ur f2).1)
    ∧ ((kvDelete deleted wp f1 ur f2).1.1 = deleted)
    ∧ ((kvDelete deleted wp f1 ur f2).2 = (updateFile wp f1 ur f2).2)
    ∧ (((kvDelete deleted wp f1 ur f2).2 =
          [Step.writePages, Step.fsync, Step.updateRoot, Step.fsync]) ↔
        (wp = none ∧ f1 = none ∧ ur = none)) := by
  rcases wp with - | e <;> rcases f1 with - | e1 <;> rcases ur with - | e2 <;>
    simp [kvDelete, updateFile]

/-- C10 witness: deleting an absent key (deleted = false) with a failing
second fsync still performs the full commit sequence and surfaces the
I/O error 7. -/
theorem kvDelete_always_commits_w :
    (kvDelete false none none none (some 7)).1.2 = some 7
    ∧ (kvDelete false none none none (some 7)).2 =
        [Step.writePages, Step.fsync, Step.updateRoot, Step.fsync] := by
  have h := kvDelete_always_commits false none none none (some 7)
  exact ⟨by simpa [updateFile] using h.2.1, h.2.2.2.2.mpr ⟨rfl, rfl, rfl⟩⟩

/-- C9: the claim says a stored 64-bit page ID is read back unchanged.
Storing 65536 = 2^16 at slot 0 and reading it back yields 0, because
getPtr and setPtr move only 16 bits of the 8-byte slot. -/
theorem getPtr_truncation_cex :
    (setPtr oneKeyLeaf 0 65536).map (fun m => getPtr m 0) = some (some 0)
    ∧ (setPtr oneKeyLeaf 0 65536).map (fun m => getPtr m 0) ≠ some (some 65536) :=
  ⟨rfl, by decide⟩

end GoDB
